import Mathlib

set_option maxRecDepth 40000

/-!
Verification development for the Numina server core: a shallow embedding of
the streaming completion pipeline (src/routes/completion.js and its optimized
variant), the metadata extractor, the response sanitizer, the emotion route,
and the intelligence compressor (src/services/intelligenceCompressorV2.js),
together with theorems settling the specification claims about them.

JavaScript semantics used by the embedded code is modelled explicitly:
strings are `List Char`/`String`, numbers are `ℚ` (the code under study never
reaches float-precision boundaries on the inputs evaluated here; rounding
sites are discrete and far from ties), JS values are the inductive `Val`, and
object key order is insertion order, as in the source.
-/

namespace NuminaServer

/-- Brace characters, named so strings in this file can stay bracket-free. -/
def lbrace : Char := Char.ofNat 123

def rbrace : Char := Char.ofNat 125

/-- The JS whitespace class: members of `\s`, also used by `String.prototype.trim`. -/
def jsWhitespace (c : Char) : Bool :=
  c == ' ' || c == '\t' || c == '\n' || c == '\r' || c.val == 11 || c.val == 12 ||
  c.val == 0xa0 || c.val == 0x1680 || (0x2000 ≤ c.val && c.val ≤ 0x200a) ||
  c.val == 0x2028 || c.val == 0x2029 || c.val == 0x202f || c.val == 0x205f ||
  c.val == 0x3000 || c.val == 0xfeff

/-- The `String.prototype.trim` on a character list. -/
def jsTrimL (cs : List Char) : List Char :=
  ((cs.dropWhile jsWhitespace).reverse.dropWhile jsWhitespace).reverse

/-- The `String.prototype.trim`. -/
def jsTrim (s : String) : String :=
  (jsTrimL s.toList).asString

/-- The `hay` starts with `pre` (JS `String.prototype.startsWith`). -/
def startsWithL : List Char → List Char → Bool
  | _, [] => true
  | [], _ :: _ => false
  | c :: cs, d :: ds => c == d && startsWithL cs ds

/-- JS `String.prototype.includes` on lists. -/
def includesL (hay needle : List Char) : Bool :=
  match hay with
  | [] => needle.isEmpty
  | _ :: t => startsWithL hay needle || includesL t needle

/-- JS `String.prototype.includes`. -/
def jsIncludes (hay needle : String) : Bool :=
  includesL hay.toList needle.toList

/-- JS `String.prototype.replace` with a plain-string pattern: replace the
first occurrence only.  An empty pattern matches at position 0. -/
def replaceFirstL (hay pat repl : List Char) : List Char :=
  if pat.isEmpty then repl ++ hay
  else
    match hay with
    | [] => []
    | c :: t =>
      if startsWithL (c :: t) pat then repl ++ List.drop pat.length (c :: t)
      else c :: replaceFirstL t pat repl

def replaceFirst (hay pat repl : String) : String :=
  (replaceFirstL hay.toList pat.toList repl.toList).asString

/-- JS `String.prototype.split` at newline characters, keeping empty pieces
(the semantics of `buffer.split` in the streaming handlers). -/
def splitOnNl (cs : List Char) : List (List Char) :=
  match cs with
  | [] => [[]]
  | c :: t =>
    match splitOnNl t with
    | [] => [[]]
    | h :: r => if c == '\n' then [] :: h :: r else (c :: h) :: r

/-- JS `String.prototype.toLowerCase`, restricted to the ASCII mapping (the
only characters the embedded code compares after lowercasing are ASCII). -/
def jsToLowerL (cs : List Char) : List Char :=
  cs.map Char.toLower

def jsToLower (s : String) : String :=
  (jsToLowerL s.toList).asString

/-- The `estimateTokenCount` from intelligenceCompressorV2.js:
`Math.ceil(text.length / 4)`. -/
def estimateTokenCount (text : String) : Nat :=
  (text.length + 3) / 4

/-- JS `Math.round` (round half toward positive infinity) on exact rationals. -/
def jsRound (q : ℚ) : ℤ :=
  ⌊q + 1/2⌋

/-- JS `Math.min` on two numbers. -/
def jsMin (a b : ℚ) : ℚ := min a b

/-- The JS value space reachable by the embedded code: JSON values plus
`undefined` (the result of a missing property access). -/
inductive Val where
  | null
  | undefinedV
  | bool (b : Bool)
  | num (q : ℚ)
  | str (s : String)
  | arr (elts : List Val)
  | obj (fields : List (String × Val))

/-- JS truthiness. -/
def truthy : Val → Bool
  | .null => false
  | .undefinedV => false
  | .bool b => b
  | .num q => !(q == 0)
  | .str s => !(s == "")
  | .arr _ => true
  | .obj _ => true

/-- Property access `v[k]` (`undefined` on non-objects and missing keys;
the string/array properties the source reads are modelled separately). -/
def vGet (v : Val) (k : String) : Val :=
  match v with
  | .obj fields =>
    match fields.find? (fun p => p.1 == k) with
    | some p => p.2
    | none => .undefinedV
  | _ => .undefinedV

/-- Optional chaining `v?.k`. -/
def vGetOpt (v : Val) (k : String) : Val :=
  match v with
  | .null => .undefinedV
  | .undefinedV => .undefinedV
  | _ => vGet v k

/-- JS `a || b`. -/
def jsOr (a b : Val) : Val :=
  if truthy a then a else b

/-- The `v.length` where the source may hold an array or a string
(`undefined` otherwise, as in JS for plain objects without `length`). -/
def vLength : Val → Val
  | .arr l => .num l.length
  | .str s => .num s.length
  | _ => .undefinedV

/-- Indexed access `v[i]` for arrays and strings. -/
def vIndex (v : Val) (i : Nat) : Val :=
  match v with
  | .arr l => l.getD i .undefinedV
  | .str s =>
    if h : i < s.toList.length then .str (String.singleton (s.toList.get ⟨i, h⟩))
    else .undefinedV
  | _ => .undefinedV

/-- JS number-to-string for the numbers the embedded code renders: integers,
and one-decimal values (the compressor rounds every non-integer to one
decimal before rendering).  Other rationals get a fraction rendering; no
embedded code path reaches them. -/
def ratToJsString (q : ℚ) : String :=
  if q.den == 1 then toString q.num
  else if (q * 10).den == 1 then
    let sgn := if q < 0 then ("-") else ("")
    let a : ℚ := |q|
    let ip : ℤ := ⌊a⌋
    let fd : ℤ := ⌊(a - ip) * 10⌋
    sgn ++ toString ip ++ "." ++ toString fd
  else toString q.num ++ "/" ++ toString q.den

/-- JS string coercion (`String(v)`, template literals, `v.toString()`),
with a depth bound far beyond anything the embedded code builds
(`Array.prototype.toString` is `join(",")` with null/undefined as empty). -/
def jsToStringF : Nat → Val → String
  | 0, _ => ""
  | fuel + 1, v =>
    match v with
    | .null => "null"
    | .undefinedV => "undefined"
    | .bool b => if b then ("true") else ("false")
    | .num q => ratToJsString q
    | .str s => s
    | .arr l =>
      String.intercalate (",") (l.map (fun x =>
        match x with
        | .null => ""
        | .undefinedV => ""
        | _ => jsToStringF fuel x))
    | .obj _ => "[object Object]"

def jsToString (v : Val) : String :=
  jsToStringF 1000 v

/-- JS `ToNumber` coercion, `none` standing for `NaN` (arrays coerce through
their string rendering, as `ToPrimitive` prescribes). -/
def toNumber : Val → Option ℚ
  | .null => some 0
  | .undefinedV => none
  | .bool b => some (if b then 1 else 0)
  | .num q => some q
  | .str s => strToNumber (jsTrimL s.toList)
  | .arr l => strToNumber (jsTrimL (jsToString (.arr l)).toList)
  | .obj _ => none
where
  /-- Numeric parse of a trimmed string (`""` is `0`; decimal literals only:
  the embedded code never feeds hex/exponent strings to a numeric context). -/
  strToNumber (cs : List Char) : Option ℚ :=
    if cs.isEmpty then some 0
    else
      let (sign, rest) :=
        match cs with
        | '-' :: t => ((-1 : ℚ), t)
        | '+' :: t => ((1 : ℚ), t)
        | _ => ((1 : ℚ), cs)
      let intDigits := rest.takeWhile Char.isDigit
      let afterInt := rest.dropWhile Char.isDigit
      let (fracDigits, afterFrac) :=
        match afterInt with
        | '.' :: t => (t.takeWhile Char.isDigit, t.dropWhile Char.isDigit)
        | _ => ([], afterInt)
      if afterFrac.isEmpty && !(intDigits.isEmpty && fracDigits.isEmpty) then
        let intVal : ℚ := (intDigits.foldl (fun a c => a * 10 + (c.toNat - 48)) 0 : Nat)
        let fracVal : ℚ := (fracDigits.foldl (fun a c => a * 10 + (c.toNat - 48)) 0 : Nat)
        some (sign * (intVal + fracVal / (10 ^ fracDigits.length)))
      else none

/-- JS `x >= bound` where `x` is an arbitrary value (NaN compares false). -/
def vGe (v : Val) (bound : ℚ) : Bool :=
  match toNumber v with
  | some q => bound ≤ q
  | none => false

/-- JS `x <= bound` (NaN compares false). -/
def vLe (v : Val) (bound : ℚ) : Bool :=
  match toNumber v with
  | some q => q ≤ bound
  | none => false

/-- JS `x > bound` (NaN compares false). -/
def vGt (v : Val) (bound : ℚ) : Bool :=
  match toNumber v with
  | some q => bound < q
  | none => false

/-- Skip JSON whitespace (`JSON.parse` allows only these four characters
between tokens). -/
def skipWs (cs : List Char) : List Char :=
  cs.dropWhile (fun c => c == ' ' || c == '\t' || c == '\n' || c == '\r')

/-- Update an object field list the way JS property definition does: the first
occurrence of the key keeps its position, its value is replaced; a new key is
appended. -/
def objUpsert (fields : List (String × Val)) (k : String) (v : Val) : List (String × Val) :=
  match fields with
  | [] => [(k, v)]
  | (k', v') :: t => if k' == k then (k, v) :: t else (k', v') :: objUpsert t k v

/-- Body of a JSON string literal after the opening quote: returns the decoded
characters and the input after the closing quote. -/
def parseStringBody (cs : List Char) : Option (List Char × List Char) :=
  match cs with
  | [] => none
  | c :: t =>
    if c == '"' then some ([], t)
    else if c == '\\' then
      match t with
      | [] => none
      | e :: t2 =>
        let simple : Option Char :=
          if e == '"' then some '"'
          else if e == '\\' then some '\\'
          else if e == '/' then some '/'
          else if e == 'b' then some (Char.ofNat 8)
          else if e == 'f' then some (Char.ofNat 12)
          else if e == 'n' then some '\n'
          else if e == 'r' then some '\r'
          else if e == 't' then some '\t'
          else none
        match simple with
        | some d =>
          match parseStringBody t2 with
          | some (s, r) => some (d :: s, r)
          | none => none
        | none =>
          if e == 'u' then
            match t2 with
            | h1 :: h2 :: h3 :: h4 :: t3 =>
              let hex? (h : Char) : Option Nat :=
                if h.isDigit then some (h.toNat - 48)
                else if 'a' ≤ h && h ≤ 'f' then some (h.toNat - 87)
                else if 'A' ≤ h && h ≤ 'F' then some (h.toNat - 55)
                else none
              match hex? h1, hex? h2, hex? h3, hex? h4 with
              | some a, some b, some c', some d =>
                match parseStringBody t3 with
                | some (s, r) => some (Char.ofNat (a * 4096 + b * 256 + c' * 16 + d) :: s, r)
                | none => none
              | _, _, _, _ => none
            | _ => none
          else none
    else
      match parseStringBody t with
      | some (s, r) => some (c :: s, r)
      | none => none

/-- Digits to a natural number. -/
def digitsToNat (ds : List Char) : Nat :=
  ds.foldl (fun a c => a * 10 + (c.toNat - 48)) 0

/-- A JSON number literal, as an exact rational. -/
def parseJsonNumber (cs : List Char) : Option (ℚ × List Char) :=
  let (sign, rest) : ℚ × List Char :=
    match cs with
    | '-' :: t => (-1, t)
    | _ => (1, cs)
  let intDigits := rest.takeWhile Char.isDigit
  let afterInt := rest.dropWhile Char.isDigit
  if intDigits.isEmpty then none
  else
    let (fracDigits, afterFrac) :=
      match afterInt with
      | '.' :: t => (t.takeWhile Char.isDigit, t.dropWhile Char.isDigit)
      | _ => ([], afterInt)
    if afterInt.head? == some '.' && fracDigits.isEmpty then none
    else
      let (expVal, afterExp) : Option ℤ × List Char :=
        match afterFrac with
        | e :: t =>
          if e == 'e' || e == 'E' then
            let (esign, t2) : ℤ × List Char :=
              match t with
              | '-' :: u => (-1, u)
              | '+' :: u => (1, u)
              | _ => (1, t)
            let expDigits := t2.takeWhile Char.isDigit
            if expDigits.isEmpty then (none, t2)
            else (some (esign * digitsToNat expDigits), t2.dropWhile Char.isDigit)
          else (some 0, afterFrac)
        | [] => (some 0, afterFrac)
      match expVal with
      | none => none
      | some ex =>
        let mantissa : ℚ :=
          (digitsToNat intDigits : ℚ) + (digitsToNat fracDigits : ℚ) / (10 ^ fracDigits.length)
        some (sign * mantissa * (10 : ℚ) ^ ex, afterExp)

/-- JS object literal semantics for repeated keys: each key keeps its first
position but carries its last assigned value. -/
def dedupeFieldsF : Nat → List (String × Val) → List (String × Val)
  | 0, raw => raw
  | _, [] => []
  | fuel + 1, (k, v) :: t =>
    let lastV :=
      match (t.reverse.find? (fun p => p.1 == k)) with
      | some p => p.2
      | none => v
    (k, lastV) :: dedupeFieldsF fuel (t.filter (fun p => !(p.1 == k)))

def dedupeFields (raw : List (String × Val)) : List (String × Val) :=
  dedupeFieldsF raw.length raw

mutual

/-- Recursive-descent `JSON.parse` value parser; `fuel` bounds nesting. -/
def parseVal (fuel : Nat) (cs : List Char) : Option (Val × List Char) :=
  match fuel with
  | 0 => none
  | fuel + 1 =>
    match skipWs cs with
    | [] => none
    | c :: t =>
      if c == 'n' then
        if startsWithL t ['u', 'l', 'l'] then some (.null, t.drop 3) else none
      else if c == 't' then
        if startsWithL t ['r', 'u', 'e'] then some (.bool true, t.drop 3) else none
      else if c == 'f' then
        if startsWithL t ['a', 'l', 's', 'e'] then some (.bool false, t.drop 4) else none
      else if c == '"' then
        match parseStringBody t with
        | some (s, r) => some (.str s.asString, r)
        | none => none
      else if c == '[' then
        match skipWs t with
        | ']' :: r => some (.arr [], r)
        | _ =>
          match parseElems fuel t with
          | some (l, r) => some (.arr l, r)
          | none => none
      else if c == lbrace then
        match skipWs t with
        | d :: r =>
          if d == rbrace then some (.obj [], r)
          else
            match parseFields fuel t with
            | some (f, r') => some (.obj (dedupeFields f), r')
            | none => none
        | [] => none
      else
        match parseJsonNumber (c :: t) with
        | some (q, r) => some (.num q, r)
        | none => none

/-- Comma-separated array elements up to `]`. -/
def parseElems (fuel : Nat) (cs : List Char) : Option (List Val × List Char) :=
  match fuel with
  | 0 => none
  | fuel + 1 =>
    match parseVal fuel cs with
    | none => none
    | some (v, rest) =>
      match skipWs rest with
      | ',' :: t =>
        match parseElems fuel t with
        | some (l, r) => some (v :: l, r)
        | none => none
      | ']' :: t => some ([v], t)
      | _ => none

/-- Comma-separated `"key": value` fields up to the closing brace. -/
def parseFields (fuel : Nat) (cs : List Char) : Option (List (String × Val) × List Char) :=
  match fuel with
  | 0 => none
  | fuel + 1 =>
    match skipWs cs with
    | '"' :: t =>
      match parseStringBody t with
      | none => none
      | some (k, r1) =>
        match skipWs r1 with
        | ':' :: r2 =>
          match parseVal fuel r2 with
          | none => none
          | some (v, r3) =>
            match skipWs r3 with
            | ',' :: r4 =>
              match parseFields fuel r4 with
              | some (f, r5) => some ((k.asString, v) :: f, r5)
              | none => none
            | d :: r4 =>
              if d == rbrace then some ([(k.asString, v)], r4) else none
            | [] => none
        | _ => none
    | _ => none

end

/-- The `JSON.parse`, as the embedded code uses it: a value for a well-formed
document, `none` when JS would throw a `SyntaxError`. -/
def jsonParse (s : String) : Option Val :=
  match parseVal (2 * s.length + 2) s.toList with
  | some (v, rest) => if (skipWs rest).isEmpty then some v else none
  | none => none

/-- JSON string escaping for `JSON.stringify`. -/
def escapeJsonChar (c : Char) : List Char :=
  if c == '"' then ['\\', '"']
  else if c == '\\' then ['\\', '\\']
  else if c == '\n' then ['\\', 'n']
  else if c == '\r' then ['\\', 'r']
  else if c == '\t' then ['\\', 't']
  else if c.val == 8 then ['\\', 'b']
  else if c.val == 12 then ['\\', 'f']
  else if c.val < 0x20 then
    let hexDigit (n : Nat) : Char :=
      if n < 10 then Char.ofNat (48 + n) else Char.ofNat (87 + n - 10)
    ['\\', 'u', '0', '0', hexDigit (c.toNat / 16), hexDigit (c.toNat % 16)]
  else [c]

/-- A JSON string literal for `s`. -/
def quoteJson (s : String) : String :=
  ("\"".toList ++ (s.toList.flatMap escapeJsonChar) ++ "\"".toList).asString

/-- The `JSON.stringify`, depth-bounded like `jsToStringF`: `none` models the
`undefined` result; array holes render as `null`, object fields with
`undefined` values are omitted. -/
def stringifyValF : Nat → Val → Option String
  | 0, _ => none
  | fuel + 1, v =>
    match v with
    | .null => some ("null")
    | .undefinedV => none
    | .bool b => some (if b then ("true") else ("false"))
    | .num q => some (ratToJsString q)
    | .str s => some (quoteJson s)
    | .arr l =>
      some ("[" ++ String.intercalate (",") (l.map (fun x =>
        match stringifyValF fuel x with
        | some s => s
        | none => "null")) ++ "]")
    | .obj f =>
      some (String.singleton lbrace ++ String.intercalate (",")
        (f.filterMap (fun p =>
          (stringifyValF fuel p.2).map (fun s => quoteJson p.1 ++ ":" ++ s))) ++
        String.singleton rbrace)

/-- The `JSON.stringify` at the sites the embedded code uses it (always defined
there: the argument is an object literal). -/
def jsonStringify (v : Val) : String :=
  match stringifyValF 1000 v with
  | some s => s
  | none => "undefined"

/-!
### Regex engines for the fixed patterns of src/routes/completion.js

Each pattern of the source is implemented directly as a scanner; global
`replace` is a left-to-right scan emitting each match's replacement.
-/

/-- A match of `/MARKER:?\s*(\{[\s\S]*?\})\s*?/` at the head of `cs`:
the marker literal, an optional colon, greedy whitespace, then a lazy
brace block (up to the first closing brace); the trailing lazy `\s*?`
matches empty.  Returns `(full match, capture group)`. -/
def matchMarkerJsonAt (marker cs : List Char) : Option (List Char × List Char) :=
  if startsWithL cs marker then
    let r1 := cs.drop marker.length
    let (cLen, r2) : Nat × List Char :=
      match r1 with
      | ':' :: t => (1, t)
      | _ => (0, r1)
    let ws := r2.takeWhile jsWhitespace
    let r3 := r2.drop ws.length
    match r3 with
    | c :: t =>
      if c == lbrace then
        let inner := t.takeWhile (fun d => !(d == rbrace))
        if inner.length < t.length then
          some (cs.take (marker.length + cLen + ws.length + inner.length + 2),
            c :: (inner ++ [rbrace]))
        else none
      else none
    | [] => none
  else none

/-- All matches of the global marker-JSON regex, left to right and
non-overlapping, as `String.prototype.match` with a `/g` regex produces
(full match strings; capture groups are not reported by a global match).
The fuel equals the scanned length; every step consumes at least one
character (`max · 1` is never the deciding factor for a nonempty marker). -/
def findMarkerMatchesF (marker : List Char) : Nat → List Char → List (List Char × List Char)
  | 0, _ => []
  | _, [] => []
  | fuel + 1, c :: t =>
    match matchMarkerJsonAt marker (c :: t) with
    | some (full, cap) =>
      (full, cap) :: findMarkerMatchesF marker fuel (List.drop (max full.length 1) (c :: t))
    | none => findMarkerMatchesF marker fuel t

def findMarkerMatches (marker cs : List Char) : List (List Char × List Char) :=
  findMarkerMatchesF marker cs.length cs

/-- Generic global-replace scan: `m` reports how many characters the pattern
consumes at the current position and the replacement characters.  Fueled the
same way as the match scan. -/
def replaceScanF (m : List Char → Option (Nat × List Char)) :
    Nat → List Char → List Char
  | 0, cs => cs
  | _, [] => []
  | fuel + 1, c :: t =>
    match m (c :: t) with
    | some (n, repl) => repl ++ replaceScanF m fuel (List.drop (max n 1) (c :: t))
    | none => c :: replaceScanF m fuel t

def replaceScan (m : List Char → Option (Nat × List Char)) (cs : List Char) : List Char :=
  replaceScanF m cs.length cs

/-- A match of one alternative of `CLEANUP_REGEX`
(`/(?:TASK_INFERENCE|EMOTION_LOG):?\s*(?:\{[\s\S]*?\})?\s*?/`) at the head:
the brace block is optional, so a marker with no parsable block still
matches through the greedy whitespace. -/
def cleanupMarkerAt (marker cs : List Char) : Option Nat :=
  if startsWithL cs marker then
    let r1 := cs.drop marker.length
    let (cLen, r2) : Nat × List Char :=
      match r1 with
      | ':' :: t => (1, t)
      | _ => (0, r1)
    let ws := r2.takeWhile jsWhitespace
    let r3 := r2.drop ws.length
    let braceLen : Nat :=
      match r3 with
      | c :: t =>
        if c == lbrace then
          let inner := t.takeWhile (fun d => !(d == rbrace))
          if inner.length < t.length then inner.length + 2 else 0
        else 0
      | [] => 0
    some (marker.length + cLen + ws.length + braceLen)
  else none

/-- The `CLEANUP_REGEX` at the head of `cs` (alternation tries
`TASK_INFERENCE` first, as written). -/
def cleanupMatchAt (cs : List Char) : Option (Nat × List Char) :=
  match cleanupMarkerAt ("TASK_INFERENCE").toList cs with
  | some n => some (n, [])
  | none =>
    match cleanupMarkerAt ("EMOTION_LOG").toList cs with
    | some n => some (n, [])
    | none => none

/-- The `/<\|im_(start|end)\|>(assistant|user)?\n?/` at the head of `cs`. -/
def imTokenMatchAt (cs : List Char) : Option (Nat × List Char) :=
  let base : Option Nat :=
    if startsWithL cs ("<|im_start|>").toList then some 12
    else if startsWithL cs ("<|im_end|>").toList then some 10
    else none
  match base with
  | none => none
  | some n =>
    let r := cs.drop n
    let n2 : Nat :=
      if startsWithL r ("assistant").toList then 9
      else if startsWithL r ("user").toList then 4
      else 0
    let n3 : Nat := if (r.drop n2).head? == some '\n' then 1 else 0
    some (n + n2 + n3, [])

/-- First index at which `needle` occurs in `hay`. -/
def firstIndexOfSub (hay needle : List Char) : Option Nat :=
  match hay with
  | [] => if needle.isEmpty then some 0 else none
  | _ :: t =>
    if startsWithL hay needle then some 0
    else (firstIndexOfSub t needle).map (· + 1)

/-- A match of the lazy fenced-block pattern at the head of `cs`
(from triple-backtick-json to the nearest following triple backtick). -/
def codeBlockMatchAt (cs : List Char) : Option (Nat × List Char) :=
  if startsWithL cs ("```json").toList then
    match firstIndexOfSub (cs.drop 7) ("```").toList with
    | some i => some (7 + i + 3, [])
    | none => none
  else none

/-- Maximal run of `\r?\n` units at the head: `(units, chars consumed)`. -/
def countNlUnits : List Char → Nat × Nat
  | '\r' :: '\n' :: t =>
    let (u, k) := countNlUnits t
    (u + 1, k + 2)
  | '\n' :: t =>
    let (u, k) := countNlUnits t
    (u + 1, k + 1)
  | _ => (0, 0)

/-- The `/(\r?\n){2,}/`, replaced by a single newline. -/
def nlRunMatchAt (cs : List Char) : Option (Nat × List Char) :=
  let (u, k) := countNlUnits cs
  if 2 ≤ u then some (k, ['\n']) else none

/-!
### src/routes/completion.js — extractor, sanitizer, commit, stream handler
-/

namespace Completion

/-- The `extractJsonPattern` from src/routes/completion.js.  The source regexes
carry the `/g` flag, so `content.match(regex)` yields the array of full
match strings without capture groups; `match[1]` is therefore the second
full match (not the captured JSON), and `content.replace(match[0], "")`
removes the first occurrence of the first full match. -/
def extractJsonPattern (marker : String) (content : String) : Option Val × String :=
  match findMarkerMatches marker.toList content.toList with
  | [] => (none, content)
  | [_] => (none, content)
  | m0 :: m1 :: _ =>
    match jsonParse (jsTrimL m1.1).asString with
    | none => (none, content)
    | some v => (some v, (replaceFirstL content.toList m0.1 []).asString)

/-- The fixed user-visible apology string of `cleanResponse`. -/
def apologyString : String :=
  "I\x27m sorry, I wasn\x27t able to provide a proper response. Please try again."

/-- The `cleanResponse` from src/routes/completion.js: the chained replaces, a
trim, then the case-insensitive residual line filter, with the apology
fallback for a falsy result. -/
def cleanResponse (content : String) : String :=
  if content == "" then ("")
  else
    let s1 := replaceScan imTokenMatchAt content.toList
    let s2 := replaceScan cleanupMatchAt s1
    let s3 := replaceScan codeBlockMatchAt s2
    let s4 := replaceScan nlRunMatchAt s3
    let cleaned := jsTrimL s4
    let lower := jsToLowerL cleaned
    let cleaned2 :=
      if includesL lower ("task_inference").toList || includesL lower ("emotion_log").toList then
        jsTrimL (String.intercalate ("\n")
          (((splitOnNl cleaned).filter (fun line =>
            let ll := jsToLowerL line
            !(includesL ll ("task_inference").toList) &&
              !(includesL ll ("emotion_log").toList))).map List.asString)).toList
      else cleaned
    if cleaned2.isEmpty then apologyString else cleaned2.asString

/-- One memory row handed to `ShortTermMemory.insertMany`. -/
structure MemoryEntry where
  role : String
  content : String
deriving Repr

/-- The emotion entry pushed onto `emotionalLog` by the commit path. -/
structure EmotionCommit where
  emotion : Val
  context : Val
  intensity : Option Val

/-- The task row handed to `Task.create`. -/
structure TaskCommit where
  taskType : Val
  parameters : Val

/-- The database writes issued by one commit. -/
structure SaveResult where
  memory : List MemoryEntry
  emotionOp : Option EmotionCommit
  taskOp : Option TaskCommit
  sanitizedContent : String

/-- JS `typeof v === "object"` (true for objects, arrays and `null`). -/
def typeofIsObject : Val → Bool
  | .obj _ => true
  | .arr _ => true
  | .null => true
  | _ => false

/-- The `processResponseAndSave` from src/routes/completion.js: extract emotion
then task, sanitize, and issue the memory pair plus conditional emotion and
task writes. -/
def processResponseAndSave (fullContent userPrompt : String) : SaveResult :=
  let (inferredEmotion, c1) := extractJsonPattern ("EMOTION_LOG") fullContent
  let (inferredTask, c2) := extractJsonPattern ("TASK_INFERENCE") c1
  let sanitizedContent := cleanResponse c2
  let memory : List MemoryEntry :=
    [⟨"user", userPrompt⟩, ⟨"assistant", sanitizedContent⟩]
  let emotionOp : Option EmotionCommit :=
    match inferredEmotion with
    | none => none
    | some e =>
      if truthy (vGet e ("emotion")) then
        some ⟨vGet e ("emotion"), jsOr (vGet e ("context")) (.str userPrompt),
          if vGe (vGet e ("intensity")) 1 && vLe (vGet e ("intensity")) 10 then
            some (vGet e ("intensity"))
          else none⟩
      else none
  let taskOp : Option TaskCommit :=
    match inferredTask with
    | none => none
    | some tk =>
      if truthy (vGet tk ("taskType")) then
        some ⟨vGet tk ("taskType"),
          if typeofIsObject (vGet tk ("parameters")) then vGet tk ("parameters") else .obj []⟩
      else none
  ⟨memory, emotionOp, taskOp, sanitizedContent⟩

/-- The `streamResponse.data.on("end")` handler's commit decision: the save
runs only when the accumulated content has a non-whitespace character. -/
def onEndCommit (fullContent userPrompt : String) : Option SaveResult :=
  if jsTrim fullContent == "" then none
  else some (processResponseAndSave fullContent userPrompt)

/-- In-flight state of the `streamResponse.data.on("data")` handler. -/
structure StreamState where
  buffer : String
  fullContent : String
  ended : Bool
  out : String

def initialStream : StreamState :=
  ⟨"", "", false, ""⟩

/-- One `data: ...` line of the main handler: forward any delta content
verbatim (this handler has no marker filter and no stop-sequence check). -/
def processLine (s : StreamState) (line : List Char) : StreamState × Bool :=
  if startsWithL line ("data: ").toList then
    let data := jsTrimL (line.drop 6)
    if data == ("[DONE]").toList then
      ({ s with out := s.out ++ "data: [DONE]\n\n", ended := true }, true)
    else
      match jsonParse data.asString with
      | none => (s, false)
      | some parsed =>
        let choices := vGet parsed ("choices")
        let first := vIndex choices 0
        let delta := vGet first ("delta")
        let contentV := vGet delta ("content")
        if truthy choices && truthy first && truthy delta && truthy contentV then
          ({ s with
              fullContent := s.fullContent ++ jsToString contentV,
              out := s.out ++ "data: " ++ jsonStringify (.obj [("content", contentV)]) ++ "\n\n" },
            false)
        else (s, false)
  else (s, false)

/-- The lines of one chunk, honoring the early `return` on `[DONE]`. -/
def processLines (s : StreamState) : List (List Char) → StreamState
  | [] => s
  | l :: rest =>
    let (s', stop) := processLine s l
    if stop then s' else processLines s' rest

/-- One upstream `data` event of the main handler: push the chunk through
the line buffer and process every complete line.  Events arriving after the
response has ended are not modelled (the response socket is closed). -/
def processChunk (s : StreamState) (chunk : String) : StreamState :=
  if s.ended then s
  else
    let lines := splitOnNl (s.buffer ++ chunk).toList
    let s1 := { s with buffer := ((lines.getLast?).getD []).asString }
    processLines s1 lines.dropLast

/-- A whole upstream stream, chunk by chunk. -/
def processChunks (s : StreamState) : List String → StreamState
  | [] => s
  | c :: rest => processChunks (processChunk s c) rest

/-- Bytes the `on("error")` handler writes (template literal, raw
interpolation of `err.message`); the handler then ends the response. -/
def streamErrorBytes (message : String) : String :=
  "data: \x7b\"error\": \"" ++ message ++ "\"\x7d\n\n"

end Completion

/-!
### The optimized completion variant (src/unnamed/part_001)
-/

namespace Optimized

/-- The `/(?:EMOTION_LOG|TASK_INFERENCE):?[^\n]*/` at the head of `cs`:
a marker, an optional colon, then the rest of the line. -/
def markerLineMatchAt (cs : List Char) : Option (Nat × List Char) :=
  let m : Option Nat :=
    if startsWithL cs ("EMOTION_LOG").toList then some 11
    else if startsWithL cs ("TASK_INFERENCE").toList then some 14
    else none
  match m with
  | some n => some (n + ((cs.drop n).takeWhile (fun c => !(c == '\n'))).length, [])
  | none => none

/-- The `/\n{2,}/`, replaced by a single newline. -/
def nlOnlyRunMatchAt (cs : List Char) : Option (Nat × List Char) :=
  let run := (cs.takeWhile (fun c => c == '\n')).length
  if 2 ≤ run then some (run, ['\n']) else none

/-- The `extractMetadata` from the optimized route: non-global regexes, so the
first match anywhere in the buffer is used and `match[1]` really is the
captured brace block; both matches are taken against the original `content`
while the removals apply to the running `cleanContent`. -/
def extractMetadata (content : String) : Option Val × Option Val × String :=
  let (inferredEmotion, clean1) :=
    match (findMarkerMatches ("EMOTION_LOG").toList content.toList).head? with
    | some (full, cap) =>
      match jsonParse cap.asString with
      | some v => (some v, replaceFirst content full.asString (""))
      | none => (none, content)
    | none => (none, content)
  let (inferredTask, clean2) :=
    match (findMarkerMatches ("TASK_INFERENCE").toList content.toList).head? with
    | some (full, cap) =>
      match jsonParse cap.asString with
      | some v => (some v, replaceFirst clean1 full.asString (""))
      | none => (none, clean1)
    | none => (none, clean1)
  let clean3 := replaceScan markerLineMatchAt clean2.toList
  let clean4 := replaceScan nlOnlyRunMatchAt clean3
  (inferredTask, inferredEmotion, (jsTrimL clean4).asString)

/-- Modelled from the spec: `sanitizeResponse` (src/utils/sanitize.js) is not
in the corpus.  Following §4.2 it removes model-framing tokens, strips
residual marker substrings case-insensitively, and substitutes a fixed
apology string when the result is empty or whitespace-only.  No claim
inspects its output beyond these clauses. -/
def sanitizeResponse (content : String) : String :=
  let lowerStrip (needle : String) : List Char → Option (Nat × List Char) :=
    fun cs => if startsWithL (jsToLowerL cs) needle.toList then some (needle.length, []) else none
  let s1 := replaceScan imTokenMatchAt content.toList
  let s2 := replaceScan (lowerStrip ("emotion_log")) s1
  let s3 := replaceScan (lowerStrip ("task_inference")) s2
  let t := jsTrimL s3
  if t.isEmpty then Completion.apologyString else t.asString

/-- The emotion entry pushed by the optimized commit: the raw `intensity`
value, with no range check. -/
structure OptEmotionCommit where
  emotion : Val
  intensity : Val
  context : Val

structure OptTaskCommit where
  taskType : Val
  parameters : Val

structure OptSaveResult where
  memory : List Completion.MemoryEntry
  emotionOp : Option OptEmotionCommit
  taskOp : Option OptTaskCommit

/-- The `processStreamResponse` from the optimized route (the commit run after a
streamed completion ends): extract metadata, sanitize, then issue the memory
pair and the unclamped emotion / task writes. -/
def processStreamResponse (fullContent userPrompt : String) : OptSaveResult :=
  let (inferredTask, inferredEmotion, cleanContent) := extractMetadata fullContent
  let sanitizedContent := sanitizeResponse cleanContent
  let memory : List Completion.MemoryEntry :=
    [⟨"user", userPrompt⟩, ⟨"assistant", sanitizedContent⟩]
  let emotionOp : Option OptEmotionCommit :=
    match inferredEmotion with
    | none => none
    | some e =>
      if truthy (vGet e ("emotion")) then
        some ⟨vGet e ("emotion"), vGet e ("intensity"), jsOr (vGet e ("context")) (.str userPrompt)⟩
      else none
  let taskOp : Option OptTaskCommit :=
    match inferredTask with
    | none => none
    | some tk =>
      if truthy (vGet tk ("taskType")) then
        some ⟨vGet tk ("taskType"), jsOr (vGet tk ("parameters")) (.obj [])⟩
      else none
  ⟨memory, emotionOp, taskOp⟩

/-- In-flight state of the optimized streaming `data` handler. -/
structure OptStreamState where
  buffer : String
  fullContent : String
  tokenCount : Nat
  streamEnded : Bool
  out : String

def optInitial : OptStreamState :=
  ⟨"", "", 0, false, ""⟩

/-- One `data: ...` line of the optimized handler: append the delta, check
the stop sequences against the accumulated buffer, check the 800-token cap,
drop marker-bearing deltas, and otherwise forward the delta.  A delta whose
`content` is truthy but not a string throws on `.trim()` inside the per-line
`try` and leaves the state unchanged. -/
def optProcessLine (stop : List String) (s : OptStreamState) (line : List Char) :
    OptStreamState × Bool :=
  if startsWithL line ("data: ").toList && decide (6 < line.length) then
    let jsonStr := jsTrimL (line.drop 6)
    if jsonStr == ("[DONE]").toList then
      ({ s with streamEnded := true }, true)
    else
      match jsonParse jsonStr.asString with
      | none => (s, false)
      | some parsed =>
        match vGet parsed ("content") with
        | .str cstr =>
          if !(cstr == "") && !(jsTrim cstr == "") then
            let full' := s.fullContent ++ cstr
            let tc' := s.tokenCount + 1
            if stop.any (fun seq => jsIncludes full' seq) then
              ({ s with fullContent := full', tokenCount := tc', streamEnded := true }, true)
            else if 800 < tc' then
              ({ s with fullContent := full', tokenCount := tc', streamEnded := true }, true)
            else if jsIncludes cstr ("EMOTION_LOG") || jsIncludes cstr ("TASK_INFERENCE") then
              ({ s with fullContent := full', tokenCount := tc' }, false)
            else
              let frame := s.out ++ "data: " ++
                jsonStringify (.obj [("content", .str cstr)]) ++ "\n\n"
              ({ s with fullContent := full', tokenCount := tc', out := frame }, false)
          else (s, false)
        | _ => (s, false)
  else (s, false)

/-- The lines of one chunk, honoring `break` on stop/cap/done. -/
def optProcessLines (stop : List String) (s : OptStreamState) :
    List (List Char) → OptStreamState
  | [] => s
  | l :: rest =>
    let (s', brk) := optProcessLine stop s l
    if brk then s' else optProcessLines stop s' rest

/-- One upstream `data` event (`if (streamEnded) return;` guards the body). -/
def optProcessChunk (stop : List String) (s : OptStreamState) (chunk : String) :
    OptStreamState :=
  if s.streamEnded then s
  else
    let lines := splitOnNl (s.buffer ++ chunk).toList
    let s1 := { s with buffer := ((lines.getLast?).getD []).asString }
    optProcessLines stop s1 lines.dropLast

/-- A whole upstream stream, chunk by chunk. -/
def optProcessChunks (stop : List String) (s : OptStreamState) :
    List String → OptStreamState
  | [] => s
  | c :: rest => optProcessChunks stop (optProcessChunk stop s c) rest

/-- Bytes the optimized `on("error")` handler writes before ending the
response (a fixed message, serialized with `JSON.stringify`). -/
def streamErrorBytes : String :=
  "data: " ++
    jsonStringify (.obj [("error", .bool true),
      ("message", .str ("Stream error. Please try again."))]) ++ "\n\n"

end Optimized

/-!
### POST /emotions (src/routes/emotions.js)
-/

namespace Emotions

/-- The emotional-log entry committed by a successful POST /emotions
(timestamp/timezone/device bookkeeping omitted). -/
structure EmotionEntry where
  emotion : String
  intensity : ℚ
  context : Option String

/-- The validation and commit of POST /emotions: `mood` must be a non-empty
string, `intensity` a number within 1..10; `none` models every rejected or
throwing request (nothing is written in those cases). -/
def postEmotion (mood intensity notes : Val) : Option EmotionEntry :=
  match mood with
  | .str m =>
    if m == "" || jsTrim m == "" then none
    else
      match intensity with
      | .num q =>
        if q < 1 || 10 < q then none
        else
          match notes with
          | .null => some ⟨jsTrim m, q, none⟩
          | .undefinedV => some ⟨jsTrim m, q, none⟩
          | .str ns => some ⟨jsTrim m, q, if jsTrim ns == "" then none else some (jsTrim ns)⟩
          | _ => none
      | _ => none
  | _ => none

end Emotions

/-!
### src/services/intelligenceCompressorV2.js

Numbers are exact rationals; every discrete decision the theorems rely on
(roundings, threshold tests) is far from a representation tie, so the float
computation of the source agrees.  The analytics-only pieces
(`calculateCompressionMetrics` timing fields, `updateCompressionCache`,
which writes a cache that no code path reads) are not part of the model.
-/

namespace Compressor

/-- One cluster object: an insertion-ordered field list. -/
def Cluster := List (String × Val)

structure ModelProfile where
  maxContextTokens : ℚ
  optimalIntelligenceTokens : ℚ
  semanticUnderstanding : ℚ
  compressionTolerance : ℚ

/-- The `this.modelProfiles`. -/
def modelProfiles : List (String × ModelProfile) :=
  [("gpt-4o", ⟨128000, 150, 19/20, 4/5⟩),
   ("claude-3", ⟨200000, 200, 23/25, 3/4⟩),
   ("gpt-4", ⟨8000, 100, 22/25, 17/20⟩)]

def lookupProfile (model : String) : Option ModelProfile :=
  (modelProfiles.find? (fun p => p.1 == model)).map Prod.snd

/-- The `this.semanticAbbreviations`. -/
def semanticAbbreviations : List (String × String) :=
  [("messageComplexity", "mc"), ("currentState", "cs"), ("primaryEmotion", "e"),
   ("emotionalIntensity", "ei"), ("confidence", "conf"), ("engagementLevel", "eng"),
   ("emotionalShifts", "esh"), ("communicationStyle", "comm"),
   ("topicEvolution", "topic"), ("dominantTopic", "dom"), ("topicFlow", "flow"),
   ("transitions", "trans"),
   ("engagementTrends", "etrend"), ("interactionPatterns", "ipat"),
   ("emotionalTrends", "etrend"), ("problemSolvingApproach", "psa"),
   ("personalityEvolution", "pers"), ("dominantTraits", "traits"),
   ("cognitiveStyle", "cog"), ("decisionPatterns", "dec"),
   ("learningVelocity", "lv"), ("emotionalProfile", "eprof"),
   ("trend", "t"), ("current", "c"), ("baseline", "b"),
   ("increasing", "inc"), ("decreasing", "dec"), ("stable", "stab"),
   ("neutral", "neu"), ("positive", "pos"), ("negative", "neg"),
   ("analytical", "ana"), ("creative", "cre"), ("practical", "prac"),
   ("inquiry", "inq"), ("personal", "pers"), ("technical", "tech"),
   ("sharing", "shr"), ("questioning", "que"), ("explaining", "exp")]

/-- The `calculateOptimalTokenBudget`: profile base times complexity, message
type and history factors, capped at a tenth of the model context, rounded. -/
def calculateOptimalTokenBudget (model messageType : String) (complexity : ℚ)
    (historyLength : Nat) : ℤ :=
  let modelProfile := (lookupProfile model).getD ((lookupProfile ("gpt-4o")).getD ⟨0, 0, 0, 0⟩)
  let b0 := modelProfile.optimalIntelligenceTokens
  let complexityMultiplier := jsMin 2 (1/2 + complexity / 10)
  let b1 := b0 * complexityMultiplier
  let typeMultiplier : ℚ :=
    if messageType == "greeting" then 3/10
    else if messageType == "standard" then 1
    else if messageType == "question" then 6/5
    else if messageType == "technical" then 3/2
    else if messageType == "analysis" then 9/5
    else if messageType == "emotional" then 13/10
    else if messageType == "creative" then 7/5
    else 1
  let b2 := b1 * typeMultiplier
  let b3 :=
    if 10 < historyLength then b2 * (13/10)
    else if historyLength < 3 then b2 * (4/5)
    else b2
  jsRound (jsMin b3 (modelProfile.maxContextTokens * (1/10)))

/-- The `extractPrimaryPersonality`. -/
def extractPrimaryPersonality (intelligence : Val) : Val :=
  let traits := jsOr
    (vGetOpt (vGetOpt (vGet intelligence ("macro")) ("personalityEvolution")) ("dominantTraits"))
    (.arr [])
  if vGt (vLength traits) 0 then vIndex traits 0 else .str ("analytical")

/-- The `extractCommunicationStyle`. -/
def extractCommunicationStyle (intelligence : Val) : Val :=
  jsOr (vGetOpt (vGetOpt (vGet intelligence ("micro")) ("communicationStyle")) ("tone"))
    (.str ("balanced"))

/-- The `extractCognitiveProfile`. -/
def extractCognitiveProfile (intelligence : Val) : Val :=
  let complexity := jsOr
    (vGetOpt (vGetOpt (vGet intelligence ("micro")) ("messageComplexity")) ("current"))
    (.num 5)
  if vGt complexity 7 then .str ("complex")
  else if vGt complexity 4 then .str ("moderate")
  else .str ("simple")

/-- The `extractCurrentFocus`; `.includes` on a truthy non-string throws, which
the top-level `catch` of `compressForLLM` converts into the fallback. -/
def extractCurrentFocus (currentMoment : Val) : Except Unit Val :=
  match currentMoment with
  | .str s =>
    .ok (if jsIncludes s ("technical") then .str ("technical")
      else if jsIncludes s ("personal") then .str ("personal")
      else if jsIncludes s ("creative") then .str ("creative")
      else .str ("general"))
  | _ => .error ()

/-- The `buildContextualCluster`. -/
def buildContextualCluster (intelligence : Val) (messageType : String) (complexity : ℚ) :
    Except Unit Cluster := do
  let focus ← extractCurrentFocus
    (jsOr (vGetOpt (vGet intelligence ("synthesis")) ("currentMoment")) (.str ("")))
  pure [("messageType", .str messageType), ("complexity", .num complexity),
    ("focus", focus),
    ("urgency", .str (if 8 < complexity then ("high") else ("normal"))),
    ("reliability", .num (4/5))]

/-- The `predictUserNeeds`. -/
def predictUserNeeds (_intelligence : Val) (messageType : String) : Val :=
  .arr ((if messageType == "question" then
          [Val.str ("detailed explanation"), Val.str ("examples")] else []) ++
        (if messageType == "technical" then
          [Val.str ("precise information"), Val.str ("implementation details")] else []) ++
        (if messageType == "emotional" then
          [Val.str ("empathy"), Val.str ("support"), Val.str ("understanding")] else []))

/-- The `predictOptimalResponse`. -/
def predictOptimalResponse (_intelligence : Val) (complexity : ℚ) : Val :=
  if 7 < complexity then .str ("comprehensive-analytical")
  else if complexity < 4 then .str ("simple-direct")
  else .str ("balanced-informative")

/-- The `predictNextInteraction`. -/
def predictNextInteraction (intelligence : Val) : Val :=
  let patterns := jsOr (vGetOpt (vGet intelligence ("medium")) ("interactionPatterns")) (.obj [])
  jsOr (vGet patterns ("likelyNext")) (.str ("follow-up-question"))

/-- The `clusterIntelligenceData`: the seven clusters in the insertion order of
the `clusters` literal (core, dynamic, contextual, predictive, behavioral,
emotional, cognitive); all empty when the context is falsy. -/
def clusterIntelligenceData (intelligenceContext : Val) (messageType : String)
    (complexity : ℚ) : Except Unit (List (String × Cluster)) :=
  if !truthy intelligenceContext then
    .ok [("core", []), ("dynamic", []), ("contextual", []), ("predictive", []),
      ("behavioral", []), ("emotional", []), ("cognitive", [])]
  else do
    let contextual ← buildContextualCluster intelligenceContext messageType complexity
    let ctx := intelligenceContext
    let core : Cluster :=
      [("primaryPersonality", extractPrimaryPersonality ctx),
       ("communicationStyle", extractCommunicationStyle ctx),
       ("cognitiveProfile", extractCognitiveProfile ctx),
       ("reliability", .num (9/10))]
    let dynamic : Cluster :=
      [("currentState", jsOr (vGetOpt (vGet ctx ("micro")) ("currentState")) (.obj [])),
       ("engagementLevel",
         jsOr (vGetOpt (vGetOpt (vGet ctx ("medium")) ("engagementTrends")) ("overall"))
           (.str ("moderate"))),
       ("recentPattern", jsOr (vGetOpt (vGet ctx ("synthesis")) ("currentMoment")) (.str (""))),
       ("emotionalState", jsOr (vGetOpt (vGet ctx ("micro")) ("emotionalShifts")) (.arr [])),
       ("reliability", .num (7/10))]
    let predictive : Cluster :=
      [("likelyNeeds", predictUserNeeds ctx messageType),
       ("optimalResponse", predictOptimalResponse ctx complexity),
       ("nextInteraction", predictNextInteraction ctx),
       ("reliability", .num (3/5))]
    let behavioral : Cluster :=
      [("decisionMaking", jsOr (vGetOpt (vGet ctx ("macro")) ("decisionPatterns")) (.obj [])),
       ("interactionStyle", jsOr (vGetOpt (vGet ctx ("medium")) ("interactionPatterns")) (.obj [])),
       ("learningStyle", jsOr (vGetOpt (vGet ctx ("macro")) ("learningVelocity")) (.obj [])),
       ("reliability", .num (4/5))]
    let emotional : Cluster :=
      [("current",
         jsOr (vGetOpt (vGetOpt (vGet ctx ("micro")) ("currentState")) ("primaryEmotion"))
           (.str ("neutral"))),
       ("intensity",
         jsOr (vGetOpt (vGetOpt (vGet ctx ("micro")) ("currentState")) ("emotionalIntensity"))
           (.num 5)),
       ("confidence",
         jsOr (vGetOpt (vGetOpt (vGet ctx ("micro")) ("currentState")) ("confidence"))
           (.str ("baseline_established"))),
       ("recentShifts", jsOr (vGetOpt (vGet ctx ("micro")) ("emotionalShifts")) (.arr [])),
       ("baseline", jsOr (vGetOpt (vGet ctx ("macro")) ("emotionalProfile")) (.obj [])),
       ("patterns", jsOr (vGetOpt (vGet ctx ("medium")) ("emotionalTrends")) (.obj [])),
       ("reliability", .num (17/20))]
    let cognitive : Cluster :=
      [("complexity", jsOr (vGetOpt (vGet ctx ("micro")) ("messageComplexity")) (.obj [])),
       ("processing", jsOr (vGetOpt (vGet ctx ("macro")) ("cognitiveStyle")) (.obj [])),
       ("problemSolving", jsOr (vGetOpt (vGet ctx ("medium")) ("problemSolvingApproach")) (.obj [])),
       ("reliability", .num (17/20))]
    pure [("core", core), ("dynamic", dynamic), ("contextual", contextual),
      ("predictive", predictive), ("behavioral", behavioral),
      ("emotional", emotional), ("cognitive", cognitive)]

/-- JS `s.substring(a, b)`. -/
def jsSubstring (s : String) (a b : Nat) : String :=
  ((s.toList.drop a).take (b - a)).asString

/-- The `getAbbreviation`: `null` for falsy or non-string terms, the dictionary
entry (direct, then lowercased) or `undefined` otherwise. -/
def getAbbreviation (term : Val) : Val :=
  match term with
  | .str s =>
    if s == "" then .null
    else
      match (semanticAbbreviations.find? (fun p => p.1 == s)).map Prod.snd with
      | some a => .str a
      | none =>
        match (semanticAbbreviations.find? (fun p => p.1 == jsToLower s)).map Prod.snd with
        | some a => .str a
        | none => .undefinedV
  | _ => .null

/-- The `s.charAt(0)` (empty string when out of range). -/
def charAt0 (s : String) : String :=
  match s.toList with
  | [] => ""
  | c :: _ => String.singleton c

/-- Array items of `compressValue`: `getAbbreviation(item) || item.toString().charAt(0)`;
`toString` on a `null`/`undefined` item throws. -/
def compressArrayItem (item : Val) : Except Unit String :=
  match jsOr (getAbbreviation item) item with
  | .str r =>
    if truthy (getAbbreviation item) then .ok r
    else
      match item with
      | .null => .error ()
      | .undefinedV => .error ()
      | _ => .ok (charAt0 (jsToString item))
  | v =>
    match v with
    | .null => .error ()
    | .undefinedV => .error ()
    | _ => .ok (charAt0 (jsToString v))

/-- The `compressValue`: `none` models the `null` result; strings carry the JS
rendering of the returned string-or-number.  The fuel bounds the nesting of
the first-entry recursion; exhausting it models the stack overflow JS would
hit on deeper objects (an exception, like any other throw here). -/
def compressValueF : Nat → Val → Except Unit (Option String)
  | 0, _ => .error ()
  | fuel + 1, v =>
    match v with
    | .null => .ok none
    | .undefinedV => .ok none
    | .str s =>
      .ok (some (match jsOr (getAbbreviation (.str s)) (.str (jsSubstring s 0 8)) with
        | .str r => r
        | w => jsToString w))
    | .num q =>
      .ok (some (ratToJsString (if q.den == 1 then q else ((jsRound (q * 10) : ℚ) / 10))))
    | .bool b => .ok (some (jsSubstring (jsToString (.bool b)) 0 6))
    | .arr l => do
      let parts ← l.mapM compressArrayItem
      .ok (some (String.join parts))
    | .obj fields =>
      let trendV := vGet (.obj fields) ("trend")
      let currentV := vGet (.obj fields) ("current")
      if truthy trendV && truthy currentV then
        .ok (some ("t-" ++ jsToString (getAbbreviation trendV) ++ ",c:" ++ jsToString currentV))
      else
        let emotionV := vGet (.obj fields) ("emotion")
        let intensityV := vGet (.obj fields) ("intensity")
        if truthy emotionV && truthy intensityV then
          .ok (some (jsToString (getAbbreviation emotionV) ++ "(" ++ jsToString intensityV ++ ")"))
        else
          match fields with
          | [] => .ok (some (jsSubstring (jsToString (.obj [])) 0 6))
          | (k, fv) :: _ => do
            let valueAbbr ← compressValueF fuel fv
            .ok (some (jsToString (getAbbreviation (.str k)) ++ ":" ++
              (match valueAbbr with
               | some s => s
               | none => "null")))

def compressValue (v : Val) : Except Unit (Option String) :=
  compressValueF 1000 v

/-- Split at a separator character, keeping empty pieces. -/
def splitOnCharL (sep : Char) (cs : List Char) : List (List Char) :=
  match cs with
  | [] => [[]]
  | c :: t =>
    match splitOnCharL sep t with
    | [] => [[]]
    | h :: r => if c == sep then [] :: h :: r else (c :: h) :: r

/-- The accumulation loop of `truncateToTokenLimit`. -/
def truncateGo (tokenLimit : ℤ) : List String → String → Nat → String
  | [], r, _ => r
  | p :: rest, r, tc =>
    let pt := estimateTokenCount (p ++ ",")
    if ((tc + pt : ℕ) : ℤ) > tokenLimit then r
    else truncateGo tokenLimit rest (if r == "" then p else r ++ "," ++ p) (tc + pt)

/-- The `truncateToTokenLimit`: drop trailing comma-separated parts until the
token estimate fits. -/
def truncateToTokenLimit (text : String) (tokenLimit : ℤ) : String :=
  truncateGo tokenLimit ((splitOnCharL ',' text.toList).map List.asString) ("") 0

/-- The entry loop of `compressDataSemantically`: skip `reliability`, pair
each abbreviated key with its compressed value, drop `null` values. -/
def compressParts : List (String × Val) → Except Unit (List String)
  | [] => .ok []
  | (k, v) :: rest => do
    if k == "reliability" then compressParts rest
    else
      let cv ← compressValue v
      let abbreviatedKey :=
        match jsOr (getAbbreviation (.str k)) (.str (jsSubstring k 0 3)) with
        | .str r => r
        | w => jsToString w
      let restParts ← compressParts rest
      match cv with
      | some s => .ok ((abbreviatedKey ++ ":" ++ s) :: restParts)
      | none => .ok restParts

/-- The `compressDataSemantically`. -/
def compressDataSemantically (entries : List (String × Val)) (tokenLimit : ℤ) :
    Except Unit String := do
  let parts ← compressParts entries
  let result := String.intercalate (",") parts
  if ((estimateTokenCount result : ℕ) : ℤ) > tokenLimit then
    pure (truncateToTokenLimit result tokenLimit)
  else pure result

/-- The `formatSemanticCompressed` over the `Object.entries` view of its data. -/
def formatSemanticCompressed (data : List (String × Val)) (tokenLimit : ℤ) :
    Except Unit String :=
  if data.isEmpty then .ok ("") else compressDataSemantically data tokenLimit

/-- The `extractEssentialData`: the first two entries. -/
def extractEssentialData (clusterData : Cluster) : Cluster :=
  clusterData.take 2

/-- The `extractImportantData`: the first half, rounded up. -/
def extractImportantData (clusterData : Cluster) : Cluster :=
  clusterData.take ((clusterData.length + 1) / 2)

/-- The `extractDetailedData`: everything but `reliability`. -/
def extractDetailedData (clusterData : Cluster) : Cluster :=
  clusterData.filter (fun p => !(p.1 == ("reliability")))

/-- The `compressCluster`: technique chosen by the allocated tokens (the
`!clusterData` guard is vacuous at the call sites — every cluster is a
truthy object). -/
def compressCluster (clusterData : Cluster) (tokenLimit : ℤ) :
    Except Unit (Option String) :=
  if tokenLimit ≤ 0 then .ok none
  else if tokenLimit < 20 then
    (formatSemanticCompressed (extractEssentialData clusterData) tokenLimit).map some
  else if tokenLimit < 50 then
    (formatSemanticCompressed (extractImportantData clusterData) tokenLimit).map some
  else
    (formatSemanticCompressed (extractDetailedData clusterData) tokenLimit).map some

/-- The `calculateDataRichness` (the `!cluster` branch is unreachable: every
cluster name is present in the clusters object). -/
def calculateDataRichness (cluster : Cluster) : ℚ :=
  jsMin 1 ((cluster.length : ℚ) / 10)

/-- The strategy-indexed base priority matrix, in written order; unknown
strategies fall back to `balanced`. -/
def strategyPriorities (strategy : String) : List (String × ℚ) :=
  if strategy == "minimal" then
    [("emotional", 1), ("dynamic", 9/10), ("core", 4/5), ("contextual", 3/5),
     ("predictive", 1/5), ("behavioral", 3/10), ("cognitive", 3/10)]
  else if strategy == "comprehensive" then
    [("emotional", 1), ("dynamic", 1), ("core", 19/20), ("contextual", 9/10),
     ("behavioral", 4/5), ("cognitive", 3/4), ("predictive", 4/5)]
  else
    [("emotional", 1), ("dynamic", 19/20), ("core", 9/10), ("contextual", 4/5),
     ("behavioral", 7/10), ("cognitive", 3/5), ("predictive", 3/5)]

/-- The `calculateClusterPriorities`, reduced to the `priority` field (the only
one read downstream): base times reliability times data richness. -/
def calculateClusterPriorities (clusters : List (String × Cluster)) (strategy : String) :
    List (String × ℚ) :=
  (strategyPriorities strategy).map (fun p =>
    let cluster := (((clusters.find? (fun q => q.1 == p.1)).map Prod.snd).getD [])
    let rel := jsOr (vGet (Val.obj cluster) ("reliability")) (.num (1/2))
    let reliability := (toNumber rel).getD 0
    let dataRichness := calculateDataRichness cluster
    (p.1, p.2 * reliability * dataRichness))

/-- The `allocateTokensByPriority`.  When the total priority is zero the source
divides zero by zero yielding NaN tokens; the rational model yields zero —
both fail the downstream `> 0` guard identically. -/
def allocateTokensByPriority (clusterPriorities : List (String × ℚ))
    (totalTokenBudget : ℤ) : List (String × ℤ) :=
  let total := (clusterPriorities.map Prod.snd).sum
  clusterPriorities.map (fun p => (p.1, jsRound ((totalTokenBudget : ℚ) * (p.2 / total))))

/-- The compression loop of `performPredictiveCompression`: compress each
cluster with a positive allocation, in allocation order. -/
def buildCompressedClusters (clusters : List (String × Cluster)) :
    List (String × ℤ) → Except Unit (List (String × Val))
  | [] => .ok []
  | (name, tokens) :: rest => do
    let restC ← buildCompressedClusters clusters rest
    if 0 < tokens then
      let cd := (((clusters.find? (fun q => q.1 == name)).map Prod.snd).getD [])
      let r ← compressCluster cd tokens
      .ok ((name, match r with
        | some s => Val.str s
        | none => Val.null) :: restC)
    else .ok restC

/-- The `performPredictiveCompression` (the `modelProfiles[model]` read feeds an
unused parameter of the priority calculation). -/
def performPredictiveCompression (clusteredIntelligence : List (String × Cluster))
    (strategy : String) (tokenBudget : ℤ) (_model : String) :
    Except Unit (List (String × Val)) :=
  let clusterPriorities := calculateClusterPriorities clusteredIntelligence strategy
  let tokenAllocation := allocateTokensByPriority clusterPriorities tokenBudget
  buildCompressedClusters clusteredIntelligence tokenAllocation

/-- The `Object.keys(x).length` for the values reaching the quality score. -/
def objKeysCount : Val → Nat
  | .obj f => f.length
  | .str s => s.length
  | .arr l => l.length
  | _ => 0

/-- The `calculateCompressionQuality`. -/
def calculateCompressionQuality (compressed : Val) : ℚ :=
  let len := (jsonStringify compressed).length
  let structureCount := objKeysCount compressed
  let lengthScore : ℚ := if 100 < len ∧ len < 800 then 1 else 7/10
  let structureScore : ℚ := if 2 < structureCount ∧ structureCount < 8 then 1 else 4/5
  (lengthScore + structureScore) / 2

/-- The `improveCompressionQuality` is the identity in the source. -/
def improveCompressionQuality (compressedContext : Val) : Val :=
  compressedContext

/-- The `optimizeCompressionQuality`. -/
def optimizeCompressionQuality (compressedContext : Val) (qualityTarget : ℚ)
    (_tokenBudget : ℤ) : Val :=
  if qualityTarget ≤ calculateCompressionQuality compressedContext then compressedContext
  else improveCompressionQuality compressedContext

/-- The `Object.entries` of the values `generateOptimizedPrompt` feeds to the
semantic formatter (cluster strings spread into index/character entries). -/
def valEntries : Val → List (String × Val)
  | .obj f => f
  | .str s => s.toList.enum.map (fun p => (toString p.1, Val.str (String.singleton p.2)))
  | .arr l => l.enum.map (fun p => (toString p.1, p.2))
  | _ => []

/-- The `{...a, ...b}` for the values reaching the MICRO merge (strings or
`null`): integer-like keys sort ascending, the second spread overwriting
shared indices. -/
def spreadTwoStrings (a b : Val) : List (String × Val) :=
  let la := (match a with
    | .str s => s
    | _ => "").toList
  let lb := (match b with
    | .str s => s
    | _ => "").toList
  (List.range (max la.length lb.length)).map (fun i =>
    (toString i,
      Val.str (String.singleton (if i < lb.length then lb.getD i ' ' else la.getD i ' '))))

/-- The `Array.prototype.join(" ")`. -/
def joinSpace : List String → String
  | [] => ""
  | [x] => x
  | x :: y :: rest => x ++ " " ++ joinSpace (y :: rest)

/-- One guarded tagged section of `generateOptimizedPrompt` (the source
repeats this block six times): under the guard, compress the data to the
fixed per-section token limit and emit `TAG` wrapping the result in braces,
omitting empty sections. -/
def promptSection (cond : Bool) (data : List (String × Val)) (tag : String)
    (tokenLimit : ℤ) : Except Unit (List String) :=
  if cond then do
    let compressed ← formatSemanticCompressed data tokenLimit
    pure (if compressed == "" then []
      else [tag ++ String.singleton lbrace ++ compressed ++ String.singleton rbrace])
  else pure []

/-- The `generateOptimizedPrompt`: fixed-limit tagged sections in priority
order, joined with spaces.  The token budget is not an input. -/
def generateOptimizedPrompt (compressedContext : List (String × Val))
    (_messageType strategy : String) : Except Unit String := do
  let look (k : String) : Val :=
    (((compressedContext.find? (fun p => p.1 == k)).map Prod.snd).getD .undefinedV)
  let s1 ← promptSection (truthy (look ("emotional")) || truthy (look ("dynamic")))
    (spreadTwoStrings (look ("emotional")) (look ("dynamic"))) ("MICRO") 30
  let s2 ← promptSection (truthy (look ("contextual")))
    (valEntries (look ("contextual"))) ("TOPIC") 25
  let s3 ← promptSection (truthy (look ("core")))
    (valEntries (look ("core"))) ("CORE") 25
  let s4 ← promptSection (truthy (look ("behavioral")) && !(strategy == "minimal"))
    (valEntries (look ("behavioral"))) ("BEHAV") 20
  let s5 ← promptSection (truthy (look ("cognitive")) && !(strategy == "minimal"))
    (valEntries (look ("cognitive"))) ("COG") 20
  let s6 ← promptSection (truthy (look ("predictive")) && strategy == "comprehensive")
    (valEntries (look ("predictive"))) ("PRED") 15
  pure (joinSpace (s1 ++ s2 ++ s3 ++ s4 ++ s5 ++ s6))

/-- The `selectOptimalStrategy`: strictly below 50 is minimal, strictly above
150 comprehensive, otherwise balanced; the other arguments are unused. -/
def selectOptimalStrategy (_clusteredIntelligence : List (String × Cluster))
    (tokenBudget : ℤ) (_qualityTarget : ℚ) (_model : String) : String :=
  if tokenBudget < 50 then ("minimal")
  else if 150 < tokenBudget then ("comprehensive")
  else ("balanced")

/-- The options object of `compressForLLM`; `conversationHistory` is carried
as its length (the only property read), and `userPreferences` (never read)
is omitted. -/
structure CompressOptions where
  model : String := "gpt-4o"
  tokenBudget : Option ℤ := none
  qualityTarget : ℚ := 17/20
  historyLength : Nat := 0
  forceStrategy : Option String := none

/-- The observable result of `compressForLLM`: the compressed prompt plus the
metadata fields the claims concern (`strategy`, `tokenBudget`,
`actualTokens`); timing/ratio analytics are not modelled. -/
structure CompressResult where
  compressedPrompt : String
  strategy : String
  tokenBudget : Option ℤ
  actualTokens : Option Nat

/-- The `getFallbackCompression`. -/
def getFallbackCompression (_intelligenceContext : Val) (messageType : String) :
    CompressResult :=
  ⟨"User shows (" ++ messageType ++ ") communication pattern.", "fallback", none, none⟩

def objFieldsOf : Val → List (String × Val)
  | .obj f => f
  | _ => []

/-- The `compressForLLM`: budget, clustering, strategy, predictive compression,
quality pass, prompt generation; any thrown error yields the fallback
(`compressRun` is the body of the `try` block). -/
def compressRun (intelligenceContext : Val) (messageType : String)
    (complexity : ℚ) (options : CompressOptions) (tokenBudgetCalc : ℤ) :
    Except Unit (String × String) := do
  let clustered ← clusterIntelligenceData intelligenceContext messageType complexity
  let strategy :=
    match options.forceStrategy with
    | some s =>
      if s == "" then
        selectOptimalStrategy clustered tokenBudgetCalc options.qualityTarget options.model
      else s
    | none =>
      selectOptimalStrategy clustered tokenBudgetCalc options.qualityTarget options.model
  let compressedContext ←
    performPredictiveCompression clustered strategy tokenBudgetCalc options.model
  let optimizedContext :=
    optimizeCompressionQuality (.obj compressedContext) options.qualityTarget tokenBudgetCalc
  let finalPrompt ←
    generateOptimizedPrompt (objFieldsOf optimizedContext) messageType strategy
  pure (strategy, finalPrompt)

def compressForLLM (intelligenceContext : Val) (messageType : String)
    (complexity : ℚ) (options : CompressOptions) : CompressResult :=
  let tokenBudgetCalc :=
    calculateOptimalTokenBudget options.model messageType complexity options.historyLength
  match compressRun intelligenceContext messageType complexity options tokenBudgetCalc with
  | .ok (strategy, finalPrompt) =>
    ⟨finalPrompt, strategy, some tokenBudgetCalc, some (estimateTokenCount finalPrompt)⟩
  | .error _ => getFallbackCompression intelligenceContext messageType

end Compressor

/-!
## Theorems on the specification claims
-/

unseal Rat.mul Rat.add Rat.sub Rat.inv

/-- C1: a streamed delta whose content carries an `EMOTION_LOG` marker is
written verbatim to the client by the main streaming handler (no filter
exists there), and the optimized handler forwards both halves of a marker
split across two deltas — the client-visible bytes/content contain the
marker, against the leakage-free claim. -/
theorem c1_marker_delta_forwarded_to_client :
    jsIncludes (Completion.processChunk Completion.initialStream
      ("data: \x7b\"choices\":[\x7b\"delta\":\x7b\"content\":\"EMOTION_LOG: \x7b\\\"emotion\\\":\\\"sad\\\",\\\"intensity\\\":6\x7d\"\x7d\x7d]\x7d\n")).out
      ("EMOTION_LOG") = true ∧
    jsIncludes (Optimized.optProcessChunks ([]) Optimized.optInitial
      [("data: \x7b\"content\":\"EMOTIO\"\x7d\n"),
       ("data: \x7b\"content\":\"N_LOG: \x7b\\\"emotion\\\":\\\"joy\\\"\x7d\"\x7d\n")]).out
      ("EMOTIO") = true ∧
    jsIncludes (Optimized.optProcessChunks ([]) Optimized.optInitial
      [("data: \x7b\"content\":\"EMOTIO\"\x7d\n"),
       ("data: \x7b\"content\":\"N_LOG: \x7b\\\"emotion\\\":\\\"joy\\\"\x7d\"\x7d\n")]).out
      ("N_LOG") = true :=
  ⟨rfl, rfl, rfl⟩

/-- C2 counterexample: an upstream stream that closes with zero content
bytes commits nothing — no memory pair with the sanitizer fallback is
appended, contrary to the claim. -/
theorem c2_zero_byte_stream_commits_nothing :
    Completion.onEndCommit ("") ("hello") = none :=
  rfl

/-- C2 (amended): whenever the accumulated content has a non-whitespace
character, the end-of-stream commit appends exactly one `user` memory whose
content is the prompt, followed by exactly one `assistant` memory, in that
order; with whitespace-only content nothing is committed. -/
theorem c2_memory_pair_exact (fullContent userPrompt : String)
    (h : jsTrim fullContent ≠ "") :
    Completion.onEndCommit fullContent userPrompt =
      some (Completion.processResponseAndSave fullContent userPrompt) ∧
    (Completion.processResponseAndSave fullContent userPrompt).memory =
      [⟨"user", userPrompt⟩,
       ⟨"assistant",
         (Completion.processResponseAndSave fullContent userPrompt).sanitizedContent⟩] := by
  constructor
  · simp only [Completion.onEndCommit, beq_iff_eq]
    rw [if_neg h]
  · rfl

theorem c2_memory_pair_exact_witness :
    jsTrim ("Hi") ≠ "" ∧
    (Completion.onEndCommit ("Hi") ("p") =
        some (Completion.processResponseAndSave ("Hi") ("p")) ∧
      (Completion.processResponseAndSave ("Hi") ("p")).memory =
        [⟨"user", "p"⟩,
         ⟨"assistant", (Completion.processResponseAndSave ("Hi") ("p")).sanitizedContent⟩]) :=
  ⟨by decide, c2_memory_pair_exact ("Hi") ("p") (by decide)⟩

/-- C3: `extractJsonPattern` surfaces nothing even when the buffer holds a
single well-formed marker, and still nothing when it holds two — its `/g`
regex makes `match[1]` the second full match (never the captured JSON), so
extraction always fails and the text is left unchanged, against the claim
that the first well-formed occurrence is returned. -/
theorem c3_first_wellformed_marker_not_extracted :
    Completion.extractJsonPattern ("EMOTION_LOG")
        ("EMOTION_LOG: \x7b\"emotion\":\"joy\"\x7d") =
      (none, "EMOTION_LOG: \x7b\"emotion\":\"joy\"\x7d") ∧
    Completion.extractJsonPattern ("EMOTION_LOG")
        ("EMOTION_LOG: \x7b\"emotion\":\"joy\"\x7d EMOTION_LOG: \x7b\"emotion\":\"sad\"\x7d") =
      (none, "EMOTION_LOG: \x7b\"emotion\":\"joy\"\x7d EMOTION_LOG: \x7b\"emotion\":\"sad\"\x7d") :=
  ⟨rfl, rfl⟩

/-- C4: the optimized streaming commit pushes the marker's raw intensity to
the emotional log with no range check — intensity 99, outside [1,10], is
committed, against the clamp invariant. -/
theorem c4_optimized_commit_unclamped_intensity :
    ((Optimized.processStreamResponse
        ("EMOTION_LOG: \x7b\"emotion\":\"sad\",\"intensity\":99\x7d") ("p")).emotionOp.map
      (fun e => e.intensity)) = some (Val.num 99) ∧
    ¬((1 : ℚ) ≤ 99 ∧ (99 : ℚ) ≤ 10) :=
  ⟨rfl, by norm_num⟩

/-- C6 counterexample: after a mid-stream upstream error the optimized
handler writes the in-band error event and ends the response — no terminal
`data: [DONE]` follows, contrary to the claim. -/
theorem c6_no_done_after_error :
    jsIncludes Optimized.streamErrorBytes ("[DONE]") = false :=
  rfl

/-- C6 (amended): a mid-stream upstream failure is reported in-band — the
optimized handler writes exactly one SSE event whose JSON payload is
`\x7berror:true,message\x7d` with a fixed message, the main handler writes an event
whose payload is `\x7b"error": "<message>"\x7d` — and in both the response is then
ended without a terminal `[DONE]`; the HTTP status stays 200 because the
headers were already sent. -/
theorem c6_error_framing :
    Optimized.streamErrorBytes =
      "data: \x7b\"error\":true,\"message\":\"Stream error. Please try again.\"\x7d\n\n" ∧
    jsIncludes Optimized.streamErrorBytes ("[DONE]") = false ∧
    (∀ message : String, Completion.streamErrorBytes message =
      "data: \x7b\"error\": \"" ++ message ++ "\"\x7d\n\n") :=
  ⟨rfl, rfl, fun _ => rfl⟩

/-- C7 counterexample: on the empty input the response cleaner returns the
empty string, not a non-empty result. -/
theorem c7_empty_input_gives_empty_output :
    Completion.cleanResponse ("") = "" :=
  rfl

/-- C7 (amended): for every non-empty input the response cleaner returns a
non-empty result — the fixed apology string whenever stripping leaves the
text empty or whitespace-only; the empty input alone short-circuits to the
empty string. -/
theorem c7_nonempty_input_gives_nonempty_output (s : String) (h : s ≠ "") :
    Completion.cleanResponse s ≠ "" := by
  have key : ∀ l : List Char,
      (if l.isEmpty then Completion.apologyString else l.asString) ≠ "" := by
    intro l
    split
    · decide
    · next h2 =>
      intro heq
      have h3 : l = [] := congrArg String.data heq
      rw [h3] at h2
      simp at h2
  unfold Completion.cleanResponse
  rw [if_neg (by simpa using h)]
  exact key _

theorem c7_nonempty_input_gives_nonempty_output_witness :
    ("x" : String) ≠ "" ∧ Completion.cleanResponse ("x") ≠ "" :=
  ⟨by decide, c7_nonempty_input_gives_nonempty_output ("x") (by decide)⟩

/-- A prefix match survives extending the scanned list on the right. -/
theorem startsWithL_append (xs ys n : List Char) (h : startsWithL xs n = true) :
    startsWithL (xs ++ ys) n = true := by
  induction n generalizing xs with
  | nil => simp [startsWithL]
  | cons d ds ih =>
    cases xs with
    | nil => simp [startsWithL] at h
    | cons c cs =>
      simp only [List.cons_append, startsWithL, Bool.and_eq_true] at h ⊢
      exact ⟨h.1, ih cs h.2⟩

/-- A substring occurrence survives appending on the right. -/
theorem includesL_append (a b n : List Char) (h : includesL a n = true) :
    includesL (a ++ b) n = true := by
  induction a with
  | nil =>
    simp only [includesL, List.isEmpty_iff] at h
    subst h
    cases b with
    | nil => simp [includesL]
    | cons c cs => simp [includesL, startsWithL]
  | cons c cs ih =>
    simp only [includesL, Bool.or_eq_true, List.cons_append] at h ⊢
    cases h with
    | inl h1 => exact Or.inl (startsWithL_append _ _ _ h1)
    | inr h2 => exact Or.inr (ih h2)

/-- The `String.prototype.includes` is monotone under right concatenation. -/
theorem jsIncludes_append (s t n : String) (h : jsIncludes s n = true) :
    jsIncludes (s ++ t) n = true := by
  unfold jsIncludes at h ⊢
  rw [show (s ++ t).toList = s.toList ++ t.toList from rfl]
  exact includesL_append _ _ _ h

/-- Once the accumulated buffer contains a stop sequence, one line of the
optimized handler emits nothing and the buffer keeps containing it. -/
theorem optLine_stopped (stop : List String) (s : Optimized.OptStreamState)
    (l : List Char)
    (h : stop.any (fun seq => jsIncludes s.fullContent seq) = true) :
    (Optimized.optProcessLine stop s l).1.out = s.out ∧
    stop.any (fun seq =>
      jsIncludes (Optimized.optProcessLine stop s l).1.fullContent seq) = true := by
  obtain ⟨seq, hmem, hinc⟩ := List.any_eq_true.mp h
  unfold Optimized.optProcessLine
  dsimp only
  split
  case isFalse => exact ⟨rfl, h⟩
  case isTrue =>
    split
    case isTrue => exact ⟨rfl, h⟩
    case isFalse =>
      split
      case h_1 => exact ⟨rfl, h⟩
      case h_2 parsed hp =>
        split
        case h_2 => exact ⟨rfl, h⟩
        case h_1 cstr hc =>
          split
          case isFalse => exact ⟨rfl, h⟩
          case isTrue =>
            have hfull : stop.any
                (fun q => jsIncludes (s.fullContent ++ cstr) q) = true :=
              List.any_eq_true.mpr ⟨seq, hmem, jsIncludes_append _ _ _ hinc⟩
            rw [if_pos hfull]
            exact ⟨rfl, hfull⟩

/-- The line loop of one chunk emits nothing after a stop sequence has been
accumulated. -/
theorem optLines_stopped (stop : List String) (ls : List (List Char))
    (s : Optimized.OptStreamState)
    (h : stop.any (fun seq => jsIncludes s.fullContent seq) = true) :
    (Optimized.optProcessLines stop s ls).out = s.out ∧
    stop.any (fun seq =>
      jsIncludes (Optimized.optProcessLines stop s ls).fullContent seq) = true := by
  induction ls generalizing s with
  | nil => exact ⟨rfl, h⟩
  | cons l rest ih =>
    unfold Optimized.optProcessLines
    have hline := optLine_stopped stop s l h
    rcases hsl : Optimized.optProcessLine stop s l with ⟨s', brk⟩
    rw [hsl] at hline
    dsimp only at hline ⊢
    cases brk with
    | true => simpa using hline
    | false =>
      obtain ⟨ho2, hf2⟩ := ih s' hline.2
      simp only [Bool.false_eq_true, if_false]
      exact ⟨ho2.trans hline.1, hf2⟩

/-- One upstream chunk emits nothing after a stop sequence has been
accumulated. -/
theorem optChunk_stopped (stop : List String) (s : Optimized.OptStreamState)
    (c : String)
    (h : stop.any (fun seq => jsIncludes s.fullContent seq) = true) :
    (Optimized.optProcessChunk stop s c).out = s.out ∧
    stop.any (fun seq =>
      jsIncludes (Optimized.optProcessChunk stop s c).fullContent seq) = true := by
  unfold Optimized.optProcessChunk
  split
  · exact ⟨rfl, h⟩
  · exact optLines_stopped stop _ _ h

/-- A whole tail of the stream emits nothing after a stop sequence has been
accumulated. -/
theorem optChunks_stopped (stop : List String) (cs : List String)
    (s : Optimized.OptStreamState)
    (h : stop.any (fun seq => jsIncludes s.fullContent seq) = true) :
    (Optimized.optProcessChunks stop s cs).out = s.out := by
  induction cs generalizing s with
  | nil => rfl
  | cons c rest ih =>
    unfold Optimized.optProcessChunks
    obtain ⟨ho, hf⟩ := optChunk_stopped stop s c h
    exact (ih _ hf).trans ho

/-- Stream processing splits at any chunk boundary. -/
theorem optChunks_append (stop : List String) (a b : List String)
    (s : Optimized.OptStreamState) :
    Optimized.optProcessChunks stop s (a ++ b) =
      Optimized.optProcessChunks stop (Optimized.optProcessChunks stop s a) b := by
  induction a generalizing s with
  | nil => rfl
  | cons c rest ih =>
    simp only [List.cons_append, Optimized.optProcessChunks]
    exact ih _

/-- C5 counterexample: the main streaming handler performs no stop-sequence
check — after the accumulated buffer already contains the stop sequence
`Human:`, a later delta `more` is still forwarded to the client. -/
theorem c5_main_handler_forwards_after_stop :
    jsIncludes (Completion.processChunk Completion.initialStream
        ("data: \x7b\"choices\":[\x7b\"delta\":\x7b\"content\":\"Human:\"\x7d\x7d]\x7d\n")).fullContent
      ("Human:") = true ∧
    jsIncludes (Completion.processChunk
        (Completion.processChunk Completion.initialStream
          ("data: \x7b\"choices\":[\x7b\"delta\":\x7b\"content\":\"Human:\"\x7d\x7d]\x7d\n"))
        ("data: \x7b\"choices\":[\x7b\"delta\":\x7b\"content\":\"more\"\x7d\x7d]\x7d\n")).out
      ("more") = true :=
  ⟨rfl, rfl⟩

/-- C5 (amended): in the optimized streaming handler, once the accumulated
content buffer contains one of the stop sequences, no subsequent bytes are
forwarded to the client (the handler sets `streamEnded` and drops everything
after); the main handler, by contrast, performs no local stop check and
relies on the upstream `stop` parameter. -/
theorem c5_stop_sequence_halts_forwarding (stop : List String)
    (pre post : List String) (seq : String) (hmem : seq ∈ stop)
    (h : jsIncludes
      (Optimized.optProcessChunks stop Optimized.optInitial pre).fullContent seq = true) :
    (Optimized.optProcessChunks stop Optimized.optInitial (pre ++ post)).out =
      (Optimized.optProcessChunks stop Optimized.optInitial pre).out := by
  rw [optChunks_append]
  exact optChunks_stopped stop post _ (List.any_eq_true.mpr ⟨seq, hmem, h⟩)

theorem c5_stop_sequence_halts_forwarding_witness :
    (("Human:" : String) ∈ (["Human:"] : List String) ∧
      jsIncludes (Optimized.optProcessChunks (["Human:"]) Optimized.optInitial
        [("data: \x7b\"content\":\"Answer. Human:\"\x7d\n")]).fullContent ("Human:") = true) ∧
    (Optimized.optProcessChunks (["Human:"]) Optimized.optInitial
        ([("data: \x7b\"content\":\"Answer. Human:\"\x7d\n")] ++
         [("data: \x7b\"content\":\"more\"\x7d\n")])).out =
      (Optimized.optProcessChunks (["Human:"]) Optimized.optInitial
        [("data: \x7b\"content\":\"Answer. Human:\"\x7d\n")]).out :=
  ⟨⟨by decide, by decide⟩,
    c5_stop_sequence_halts_forwarding (["Human:"])
      [("data: \x7b\"content\":\"Answer. Human:\"\x7d\n")]
      [("data: \x7b\"content\":\"more\"\x7d\n")] ("Human:") (by decide) (by decide)⟩

/-- C9 counterexample: at a token budget of exactly 50 the strategy is
`balanced`, not `minimal` (and at exactly 150 it is `balanced`, not
`comprehensive`) — the source thresholds are strict. -/
theorem c9_boundary_budgets_select_balanced :
    ¬(Compressor.selectOptimalStrategy [] 50 (17/20) ("gpt-4o") = "minimal") ∧
    ¬(Compressor.selectOptimalStrategy [] 150 (17/20) ("gpt-4o") = "comprehensive") := by
  constructor <;> simp [Compressor.selectOptimalStrategy]

/-- C9 (amended): when no strategy is forced, the strategy is a function of
the computed budget alone: strictly below 50 selects `minimal`, strictly
above 150 selects `comprehensive`, and every budget in [50,150] selects
`balanced`. -/
theorem c9_strategy_thresholds (cl cl' : List (String × Compressor.Cluster))
    (b : ℤ) (qt qt' : ℚ) (m m' : String) :
    (b < 50 → Compressor.selectOptimalStrategy cl b qt m = "minimal") ∧
    (150 < b → Compressor.selectOptimalStrategy cl b qt m = "comprehensive") ∧
    (50 ≤ b → b ≤ 150 → Compressor.selectOptimalStrategy cl b qt m = "balanced") ∧
    Compressor.selectOptimalStrategy cl b qt m =
      Compressor.selectOptimalStrategy cl' b qt' m' := by
  unfold Compressor.selectOptimalStrategy
  refine ⟨fun h => ?_, fun h => ?_, fun h1 h2 => ?_, rfl⟩
  · rw [if_pos h]
  · rw [if_neg (by omega), if_pos h]
  · rw [if_neg (by omega), if_neg (by omega)]

theorem c9_strategy_thresholds_witness :
    ((30 : ℤ) < 50) ∧ Compressor.selectOptimalStrategy [] 30 (17/20) ("x") = "minimal" :=
  ⟨by decide, (c9_strategy_thresholds [] [] 30 (17/20) (17/20) ("x") ("x")).1 (by decide)⟩

/-- Destructuring a successful `Except` bind. -/
theorem bind_ok {α β : Type} {e : Except Unit α} {f : α → Except Unit β} {b : β}
    (h : (e >>= f) = .ok b) : ∃ a, e = .ok a ∧ f a = .ok b := by
  cases e with
  | error u => simp [Bind.bind, Except.bind] at h
  | ok a => exact ⟨a, rfl, by simpa [Bind.bind, Except.bind] using h⟩

/-- The truncation loop never exceeds the token limit: the built string
stays within four characters per counted token. -/
theorem truncateGo_length (L : ℤ) (parts : List String) (r : String) (tc : ℕ)
    (hr : r.length ≤ 4 * tc) (htc : (tc : ℤ) ≤ L) :
    (Compressor.truncateGo L parts r tc).length ≤ 4 * L.toNat := by
  induction parts generalizing r tc with
  | nil =>
    unfold Compressor.truncateGo
    omega
  | cons p rest ih =>
    unfold Compressor.truncateGo
    dsimp only
    split
    · omega
    · next hcond =>
      have hle : ((tc + estimateTokenCount (p ++ ",") : ℕ) : ℤ) ≤ L := by
        omega
      apply ih
      · have hpt : p.length + 1 ≤ 4 * estimateTokenCount (p ++ ",") := by
          unfold estimateTokenCount
          rw [String.length_append]
          have hone : ("," : String).length = 1 := rfl
          omega
        split
        · omega
        · rw [String.length_append, String.length_append]
          have hone : ("," : String).length = 1 := rfl
          omega
      · exact hle

/-- The `compressDataSemantically` keeps its result within four characters per
token of the limit (directly when no truncation is needed, via the
truncation loop otherwise). -/
theorem compressData_length (entries : List (String × Val)) (L : ℤ) (r : String)
    (h : Compressor.compressDataSemantically entries L = .ok r) :
    r.length ≤ 4 * L.toNat := by
  unfold Compressor.compressDataSemantically at h
  obtain ⟨parts, hp, h⟩ := bind_ok h
  dsimp only at h
  split at h
  · next hcond =>
    have hr : r = Compressor.truncateToTokenLimit
        (String.intercalate (",") parts) L := by
      simpa [Pure.pure, Except.pure] using h.symm
    rw [hr]
    unfold Compressor.truncateToTokenLimit
    by_cases hL : 0 ≤ L
    · exact truncateGo_length L _ ("") 0 (by simp) (by simpa using hL)
    · push_neg at hL
      cases hparts : (Compressor.splitOnCharL ','
          (String.intercalate (",") parts).toList).map List.asString with
      | nil => simp [Compressor.truncateGo]
      | cons p rest =>
        unfold Compressor.truncateGo
        dsimp only
        rw [if_pos (by omega)]
        simp
  · next hcond =>
    have hr : r = String.intercalate (",") parts := by
      simpa [Pure.pure, Except.pure] using h.symm
    rw [hr]
    unfold estimateTokenCount at hcond
    omega

/-- The `formatSemanticCompressed` keeps its result within four characters per
token of the limit. -/
theorem format_length (data : List (String × Val)) (L : ℤ) (r : String)
    (h : Compressor.formatSemanticCompressed data L = .ok r) :
    r.length ≤ 4 * L.toNat := by
  unfold Compressor.formatSemanticCompressed at h
  split at h
  · have hr : r = "" := by simpa using h.symm
    simp [hr]
  · exact compressData_length _ _ _ h

/-- Each prompt section contributes at most its tag, two braces and four
characters per token of its fixed limit (plus one for the join bound). -/
theorem promptSection_bound (cond : Bool) (data : List (String × Val))
    (tag : String) (L : ℤ) (s : List String)
    (h : Compressor.promptSection cond data tag L = .ok s) :
    (s.map String.length).sum + s.length ≤ tag.length + 3 + 4 * L.toNat := by
  unfold Compressor.promptSection at h
  cases cond with
  | false =>
    have hs : s = [] := by simpa [Pure.pure, Except.pure] using h.symm
    simp [hs]
  | true =>
    rw [if_pos rfl] at h
    obtain ⟨c, hc, h⟩ := bind_ok h
    have hs : s = if c == "" then []
        else [tag ++ String.singleton lbrace ++ c ++ String.singleton rbrace] := by
      simpa [Pure.pure, Except.pure] using h.symm
    have hcl := format_length _ _ _ hc
    rw [hs]
    split
    · simp
    · simp only [List.map_cons, List.map_nil, List.sum_cons, List.sum_nil,
        List.length_singleton, String.length_append]
      have h1 : (String.singleton lbrace).length = 1 := rfl
      have h2 : (String.singleton rbrace).length = 1 := rfl
      omega

/-- The `join(" ")` costs at most one extra character per element. -/
theorem joinSpace_length (l : List String) :
    (Compressor.joinSpace l).length ≤ (l.map String.length).sum + l.length := by
  induction l with
  | nil => simp [Compressor.joinSpace]
  | cons x rest ih =>
    cases rest with
    | nil => simp [Compressor.joinSpace]
    | cons y t =>
      unfold Compressor.joinSpace
      simp only [String.length_append, List.map_cons, List.sum_cons, List.length_cons]
      have hsp : (" " : String).length = 1 := rfl
      simp only [List.map_cons, List.sum_cons, List.length_cons] at ih
      omega

/-- The generated prompt is bounded by the fixed section limits alone:
546 content characters plus tags, braces and joins — at most 146 estimated
tokens, whatever the compressed clusters, message type and strategy are. -/
theorem generate_bound (cc : List (String × Val)) (mt strat : String) (r : String)
    (h : Compressor.generateOptimizedPrompt cc mt strat = .ok r) :
    estimateTokenCount r ≤ 146 := by
  unfold Compressor.generateOptimizedPrompt at h
  dsimp only at h
  obtain ⟨s1, hs1, h⟩ := bind_ok h
  obtain ⟨s2, hs2, h⟩ := bind_ok h
  obtain ⟨s3, hs3, h⟩ := bind_ok h
  obtain ⟨s4, hs4, h⟩ := bind_ok h
  obtain ⟨s5, hs5, h⟩ := bind_ok h
  obtain ⟨s6, hs6, h⟩ := bind_ok h
  have hr : r = Compressor.joinSpace (s1 ++ s2 ++ s3 ++ s4 ++ s5 ++ s6) := by
    simpa [Pure.pure, Except.pure] using h.symm
  have b1 := promptSection_bound _ _ _ _ _ hs1
  have b2 := promptSection_bound _ _ _ _ _ hs2
  have b3 := promptSection_bound _ _ _ _ _ hs3
  have b4 := promptSection_bound _ _ _ _ _ hs4
  have b5 := promptSection_bound _ _ _ _ _ hs5
  have b6 := promptSection_bound _ _ _ _ _ hs6
  have hj := joinSpace_length (s1 ++ s2 ++ s3 ++ s4 ++ s5 ++ s6)
  simp only [List.map_append, List.sum_append, List.length_append] at hj
  have t1 : ("MICRO" : String).length = 5 := rfl
  have t2 : ("TOPIC" : String).length = 5 := rfl
  have t3 : ("CORE" : String).length = 4 := rfl
  have t4 : ("BEHAV" : String).length = 5 := rfl
  have t5 : ("COG" : String).length = 3 := rfl
  have t6 : ("PRED" : String).length = 4 := rfl
  rw [t1] at b1
  rw [t2] at b2
  rw [t3] at b3
  rw [t4] at b4
  rw [t5] at b5
  rw [t6] at b6
  rw [hr]
  unfold estimateTokenCount
  omega

/-- C8 counterexample: with an empty intelligence context, message type
`greeting`, complexity 5 and default options, the computed budget is 36
tokens but the returned compressed prompt estimates to 74 tokens — the
budget does not bound the output. -/
theorem c8_budget_exceeded_by_prompt :
    (Compressor.compressForLLM (Val.obj []) ("greeting") 5 {}).tokenBudget = some 36 ∧
    (Compressor.compressForLLM (Val.obj []) ("greeting") 5 {}).actualTokens = some 74 ∧
    estimateTokenCount
      (Compressor.compressForLLM (Val.obj []) ("greeting") 5 {}).compressedPrompt = 74 ∧
    ¬((74 : ℕ) ≤ 36) :=
  ⟨rfl, rfl, rfl, by norm_num⟩

/-- C8 (amended): the compressed prompt of every non-fallback compression is
bounded by the fixed per-section limits of prompt generation — its token
estimate (`metadata.actualTokens`) never exceeds 146 — independently of the
computed budget B, which governs only strategy selection and per-cluster
allocation and does not bound the final prompt. -/
theorem c8_prompt_bounded_by_fixed_sections (ctx : Val) (mt : String) (cx : ℚ)
    (opts : Compressor.CompressOptions) (n : ℕ)
    (h : (Compressor.compressForLLM ctx mt cx opts).actualTokens = some n) :
    n ≤ 146 := by
  unfold Compressor.compressForLLM at h
  dsimp only at h
  split at h
  · next strategy finalPrompt heq =>
    have hn : n = estimateTokenCount finalPrompt := by simpa using h.symm
    unfold Compressor.compressRun at heq
    obtain ⟨clustered, hc, heq⟩ := bind_ok heq
    dsimp only at heq
    obtain ⟨cctx, hcc, heq⟩ := bind_ok heq
    obtain ⟨fp, hfp, heq⟩ := bind_ok heq
    have hfp2 : finalPrompt = fp := by
      have := heq.symm
      simp only [Pure.pure, Except.pure, Except.ok.injEq] at this
      exact congrArg Prod.snd this
    rw [← hfp2] at hfp
    rw [hn]
    exact generate_bound _ _ _ _ hfp
  · next heq =>
    simp [Compressor.getFallbackCompression] at h

theorem c8_prompt_bounded_by_fixed_sections_witness :
    (Compressor.compressForLLM (Val.obj []) ("greeting") 5 {}).actualTokens = some 74 ∧
    (74 : ℕ) ≤ 146 :=
  ⟨rfl, c8_prompt_bounded_by_fixed_sections (Val.obj []) ("greeting") 5 {} 74 rfl⟩

/-- C10: two `compressForLLM` calls differing only in the caller-supplied
`options.tokenBudget` return the same compressed prompt and the same
`metadata.tokenBudget` — the option is destructured but never used; the
internally computed budget always wins. -/
theorem c10_caller_token_budget_has_no_effect (ctx : Val) (mt : String) (cx : ℚ)
    (opts : Compressor.CompressOptions) (t1 t2 : Option ℤ) :
    (Compressor.compressForLLM ctx mt cx { opts with tokenBudget := t1 }).compressedPrompt =
      (Compressor.compressForLLM ctx mt cx { opts with tokenBudget := t2 }).compressedPrompt ∧
    (Compressor.compressForLLM ctx mt cx { opts with tokenBudget := t1 }).tokenBudget =
      (Compressor.compressForLLM ctx mt cx { opts with tokenBudget := t2 }).tokenBudget :=
  ⟨rfl, rfl⟩

end NuminaServer
